import Mathlib

/-!
# SentinelScope monitoring agents — verification of the connection/DNS cache

Shallow embedding of the cache logic of `src/examples/network-monitoring-agent.py`,
`src/examples/wifi-monitor.py` and the event construction they share.

Modelling conventions:
* Python `dict`s become association lists with a replace-or-append `setA`
  (`d[k] = v`) and a first-match `lookupA` (`k in d` / `d[k]`); keys of the
  dicts built by the agent are unique, which the proofs track where needed.
* Clock readings (`time.time()`) are integers (`Int`), so that negative
  differences behave as they do for Python floats.
* The process-wide socket default timeout is explicit state
  (`DnsState.defaultTimeout`), mutated exactly where the Python code calls
  `socket.setdefaulttimeout`.
* `socket.gethostbyaddr` is an oracle `resolver : String → Option String`;
  `none` stands for any raising/timing-out lookup (the code catches every
  exception from it).  `DnsState.resolverCalls` counts its invocations.
* An `Event` carries the fields of the emitted dict; `detectedAt` is the
  clock of the tick that produced it, and `protocol` is `none` when the
  source dict has no `"protocol"` key.
-/

namespace SentinelScope

/-- Is `pat` a prefix of `l` (character lists)? -/
def isPrefixOfList : List Char → List Char → Bool
  | [], _ => true
  | _ :: _, [] => false
  | a :: as, b :: bs => a = b && isPrefixOfList as bs

/-- Python `s.startswith(p)`. -/
def strStartsWith (s p : String) : Bool := isPrefixOfList p.toList s.toList

/-- Does `pat` occur inside `l` (character lists)? -/
def containsSeq : List Char → List Char → Bool
  | [], pat => pat.isEmpty
  | c :: rest, pat => isPrefixOfList pat (c :: rest) || containsSeq rest pat

/-- Python `pat in s` on strings. -/
def containsSubstr (s pat : String) : Bool := containsSeq s.toList pat.toList

/-- Python `s.lower()`. -/
def strToLower (s : String) : String := String.mk (s.toList.map Char.toLower)

/-- `SEEN_WINDOW = 60` (network-monitoring-agent.py line 35). -/
def SEEN_WINDOW : Int := 60

/-- `DNS_CACHE_TTL = 3600` (network-monitoring-agent.py line 39). -/
def DNS_CACHE_TTL : Int := 3600

/-- A Python dict key for the remote port: `collect_connections` stores the
    port as an `int` (psutil gives an integer), while
    `collect_connections_lsof` stores the text it parsed out of the lsof
    line, a `str`.  In Python `(ip, 443)` and `(ip, "443")` are distinct
    dict keys. -/
inductive PortKey where
  | int (p : Nat)
  | str (s : String)
deriving DecidableEq, Repr

/-- Key of `recent_connections`: `(remote_ip, remote_port)`. -/
abbrev ConnKey := String × PortKey

/-- First-match association-list lookup, the model of `k in d` / `d[k]`. -/
def lookupA {α β : Type} [DecidableEq α] : List (α × β) → α → Option β
  | [], _ => none
  | (k', v) :: rest, k => if k = k' then some v else lookupA rest k

/-- Replace-or-append association-list update, the model of `d[k] = v`. -/
def setA {α β : Type} [DecidableEq α] : List (α × β) → α → β → List (α × β)
  | [], k, v => [(k, v)]
  | (k', v') :: rest, k, v =>
    if k = k' then (k, v) :: rest else (k', v') :: setA rest k v

/-- The mutable state touched by `resolve_ip`: the `dns_cache` dict
    (`ip ↦ (hostname, timestamp)`), the process-wide socket default
    timeout, and a ghost counter of `socket.gethostbyaddr` invocations. -/
structure DnsState where
  cache : List (String × String × Int)
  defaultTimeout : Option Int
  resolverCalls : Nat
deriving DecidableEq, Repr

/-- The cache-miss/stale path of `resolve_ip` (lines 68–83): save the
    default timeout, set it to 2, call `gethostbyaddr`; on success cache
    `(hostname, now)`, on any exception cache `(ip, now)`; the `finally`
    block restores the saved timeout on both paths. -/
def resolveFresh (resolver : String → Option String) (st : DnsState)
    (ip : String) (now : Int) : String × DnsState :=
  let original_timeout := st.defaultTimeout
  let st1 : DnsState := { st with defaultTimeout := some 2 }
  match resolver ip with
  | some hostname =>
    let st2 : DnsState :=
      { st1 with cache := setA st1.cache ip (hostname, now),
                 resolverCalls := st1.resolverCalls + 1 }
    (hostname, { st2 with defaultTimeout := original_timeout })
  | none =>
    let st2 : DnsState :=
      { st1 with cache := setA st1.cache ip (ip, now),
                 resolverCalls := st1.resolverCalls + 1 }
    (ip, { st2 with defaultTimeout := original_timeout })

/-- `resolve_ip` (network-monitoring-agent.py lines 60–83): return the
    cached hostname while `now - ts < DNS_CACHE_TTL`, otherwise attempt a
    fresh reverse lookup. -/
def resolve_ip (resolver : String → Option String) (st : DnsState)
    (ip : String) (now : Int) : String × DnsState :=
  match lookupA st.cache ip with
  | some (hostname, ts) =>
    if now - ts < DNS_CACHE_TTL then (hostname, st)
    else resolveFresh resolver st ip now
  | none => resolveFresh resolver st ip now

/-- One emitted event dict.  `protocol := none` models the absence of a
    `"protocol"` key (the connection agents emit none; wifi-monitor emits
    `"arp"`). -/
structure Event where
  domain : String
  fullUrl : String
  browser : String
  ipAddress : String
  detectedAt : Int
  protocol : Option String
deriving DecidableEq, Repr

/-- The agent's module-level mutable state: `recent_connections` and the
    DNS-side state. -/
structure AgentState where
  recent : List (ConnKey × Int)
  dns : DnsState
deriving DecidableEq, Repr

/-- The state both collectors start from: empty dicts (lines 34, 38), no
    default socket timeout. -/
def initState : AgentState := ⟨[], ⟨[], none, 0⟩⟩

/-- The eviction block shared by both collectors (lines 98–100 and
    189–192): delete every entry with `current_time - t > SEEN_WINDOW`. -/
def evictRecent (now : Int) (m : List (ConnKey × Int)) : List (ConnKey × Int) :=
  m.filter (fun kv => decide (now - kv.2 ≤ SEEN_WINDOW))

/-- One psutil connection record, the fields `collect_connections` reads:
    `status`, `raddr` (`none` when falsy) and `pid` (`None` ↦ `none`). -/
structure PsConn where
  status : String
  raddr : Option (String × Nat)
  pid : Option Nat
deriving DecidableEq, Repr

/-- `get_process_name(pid) if pid else "unknown"` (line 221): a falsy pid
    (`None` or `0`) short-circuits to `"unknown"`; otherwise the
    `get_process_name` oracle `pn` answers (it already returns
    `"unknown"` on its own failures). -/
def procNameOf (pn : Nat → String) : Option Nat → String
  | some p => if p = 0 then "unknown" else pn p
  | none => "unknown"

/-- Loop body result of the connection loop: events paired with the
    suppression key of the iteration that produced them (ghost pairing
    used to state the suppression invariant; the Python function returns
    just the events, i.e. the `Prod.snd` projection). -/
abbrev KeyedEvents := List (ConnKey × Event)

/-- The `for conn in connections` loop of `collect_connections`
    (lines 201–250): keep ESTABLISHED connections with a remote address,
    drop loopback remotes (`127.*`, `::1`), suppress keys already in
    `recent_connections`, record new keys at `now`, resolve the hostname,
    and build the event.  The port is an `int` here, so Python's
    `str(remote_port) == '443'` is the numeric test `remote_port = 443`
    (decimal rendering of a Nat is injective), and likewise for 80. -/
def ccLoop (resolver : String → Option String) (pn : Nat → String) (now : Int) :
    List PsConn → List (ConnKey × Int) → DnsState →
    KeyedEvents × List (ConnKey × Int) × DnsState
  | [], recent, dns => ([], recent, dns)
  | c :: rest, recent, dns =>
    match c.raddr with
    | none => ccLoop resolver pn now rest recent dns
    | some (remote_ip, remote_port) =>
      if c.status = "ESTABLISHED" then
        if strStartsWith remote_ip "127." ∨ remote_ip = "::1" then
          ccLoop resolver pn now rest recent dns
        else
          let conn_key : ConnKey := (remote_ip, PortKey.int remote_port)
          if (lookupA recent conn_key).isSome then
            ccLoop resolver pn now rest recent dns
          else
            let recent1 := setA recent conn_key now
            let proc_name := procNameOf pn c.pid
            let res := resolve_ip resolver dns remote_ip now
            let hostname := res.1
            let dns1 := res.2
            let domain_url : String × String :=
              if hostname ≠ remote_ip then
                (hostname,
                  if remote_port = 443 then "https://" ++ hostname
                  else if remote_port = 80 then "http://" ++ hostname
                  else "tcp://" ++ hostname ++ ":" ++ toString remote_port)
              else
                (remote_ip, "tcp://" ++ remote_ip ++ ":" ++ toString remote_port)
            let e : Event :=
              { domain := domain_url.1, fullUrl := domain_url.2,
                browser := proc_name, ipAddress := remote_ip,
                detectedAt := now, protocol := none }
            let r := ccLoop resolver pn now rest recent1 dns1
            ((conn_key, e) :: r.1, r.2)
      else ccLoop resolver pn now rest recent dns

/-- `collect_connections` (lines 181–252) with the ghost key pairing:
    evict, then run the connection loop. -/
def collect_connections_keyed (resolver : String → Option String)
    (pn : Nat → String) (conns : List PsConn) (now : Int) (st : AgentState) :
    KeyedEvents × AgentState :=
  let recent0 := evictRecent now st.recent
  let r := ccLoop resolver pn now conns recent0 st.dns
  (r.1, ⟨r.2.1, r.2.2⟩)

/-- `collect_connections` as the source returns it: the plain event list. -/
def collect_connections (resolver : String → Option String)
    (pn : Nat → String) (conns : List PsConn) (now : Int) (st : AgentState) :
    List Event × AgentState :=
  let r := collect_connections_keyed resolver pn conns now st
  (r.1.map Prod.snd, r.2)

/-- Split a character list at the first occurrence of `"->"`; `none` when
    there is no occurrence. -/
def splitArrow : List Char → Option (List Char × List Char)
  | [] => none
  | c :: rest =>
    if isPrefixOfList ['-', '>'] (c :: rest) then some ([], rest.drop 1)
    else (splitArrow rest).map (fun pr => (c :: pr.1, pr.2))

/-- Python `s.rsplit(':', 1)` (as used on a string known to contain a
    colon): the text before the last colon and the text after it. -/
def rsplitColon (s : String) : String × String :=
  let r := s.toList.reverse
  let p := r.takeWhile (fun c => ¬ (c = ':'))
  if p.length = r.length then ("", s)
  else (String.mk ((r.drop (p.length + 1)).reverse), String.mk p.reverse)

/-- Python `s.strip("[]")`: drop leading and trailing `[` / `]`. -/
def stripBrackets (s : String) : String :=
  let l := s.toList.dropWhile (fun c => c = '[' ∨ c = ']')
  String.mk (l.reverse.dropWhile (fun c => c = '[' ∨ c = ']')).reverse

/-- One lsof output line after whitespace splitting (the header line
    already skipped), exactly the token list `parts = line.split()` of
    lines 110–111; the textual columns-to-tokens step is the caller-side
    text parsing the spec scopes out. -/
abbrev LsofLine := List String

/-- The per-line loop of `collect_connections_lsof` (lines 110–173):
    skip lines with fewer than 8 tokens, take `command = parts[0]`, find
    the first token containing `"->"` (else skip), split it on `"->"`
    (a token with more than one `"->"` raises ValueError and is skipped),
    require a colon in the remote part, rsplit on the last colon, strip
    IPv6 brackets, drop loopback (`127.*`, `::1`, `"localhost"`),
    suppress on the key `(r_ip, r_port)` with the port kept as a string,
    resolve, and build the event.  Note `str(r_port)` is `r_port` itself
    here, so the URL guess compares the port text with `"443"`/`"80"`. -/
def lsofLoop (resolver : String → Option String) (now : Int) :
    List LsofLine → List (ConnKey × Int) → DnsState →
    KeyedEvents × List (ConnKey × Int) × DnsState
  | [], recent, dns => ([], recent, dns)
  | line :: rest, recent, dns =>
    if line.length < 8 then lsofLoop resolver now rest recent dns
    else
      let command := line.headD ""
      let name_field := (line.find? (fun p => containsSubstr p "->")).getD ""
      if name_field = "" then lsofLoop resolver now rest recent dns
      else
        match splitArrow name_field.toList with
        | some (_loc, remoteChars) =>
          -- `local, remote = name_field.split("->")` raises ValueError
          -- (and the line is skipped) unless "->" occurs exactly once.
          if containsSeq remoteChars ['-', '>'] then lsofLoop resolver now rest recent dns
          else
          let remote := String.mk remoteChars
          if ¬ containsSubstr remote ":" then lsofLoop resolver now rest recent dns
          else
            let rp := rsplitColon remote
            let r_ip := stripBrackets rp.1
            let r_port := rp.2
            if strStartsWith r_ip "127." ∨ r_ip = "::1" ∨ r_ip = "localhost" then
              lsofLoop resolver now rest recent dns
            else
              let conn_key : ConnKey := (r_ip, PortKey.str r_port)
              if (lookupA recent conn_key).isSome then
                lsofLoop resolver now rest recent dns
              else
                let recent1 := setA recent conn_key now
                let res := resolve_ip resolver dns r_ip now
                let hostname := res.1
                let dns1 := res.2
                let domain_url : String × String :=
                  if hostname ≠ r_ip then
                    (hostname,
                      if r_port = "443" then "https://" ++ hostname
                      else if r_port = "80" then "http://" ++ hostname
                      else "tcp://" ++ hostname ++ ":" ++ r_port)
                  else
                    (r_ip, "tcp://" ++ r_ip ++ ":" ++ r_port)
                let e : Event :=
                  { domain := domain_url.1, fullUrl := domain_url.2,
                    browser := command, ipAddress := r_ip,
                    detectedAt := now, protocol := none }
                let r := lsofLoop resolver now rest recent1 dns1
                ((conn_key, e) :: r.1, r.2)
        | none => lsofLoop resolver now rest recent dns

/-- `collect_connections_lsof` (lines 92–179) with the ghost key pairing:
    the same eviction block, then the lsof line loop. -/
def collect_connections_lsof_keyed (resolver : String → Option String)
    (lines : List LsofLine) (now : Int) (st : AgentState) :
    KeyedEvents × AgentState :=
  let recent0 := evictRecent now st.recent
  let r := lsofLoop resolver now lines recent0 st.dns
  (r.1, ⟨r.2.1, r.2.2⟩)

/-- `collect_connections_lsof` as the source returns it. -/
def collect_connections_lsof (resolver : String → Option String)
    (lines : List LsofLine) (now : Int) (st : AgentState) :
    List Event × AgentState :=
  let r := collect_connections_lsof_keyed resolver lines now st
  (r.1.map Prod.snd, r.2)

/-- One sampling tick's input: either the psutil connection list or, on
    psutil `AccessDenied`, the lsof fallback's lines (line 199). -/
inductive Obs where
  | ps (conns : List PsConn)
  | ls (lines : List LsofLine)

/-- One call of the collector, dispatching on the available source. -/
def observe (resolver : String → Option String) (pn : Nat → String)
    (o : Obs) (now : Int) (st : AgentState) : KeyedEvents × AgentState :=
  match o with
  | .ps conns => collect_connections_keyed resolver pn conns now st
  | .ls lines => collect_connections_lsof_keyed resolver lines now st

/-- A sequence of sampling ticks, each with its clock reading, run from a
    state; returns all keyed events in emission order. -/
def runObs (resolver : String → Option String) (pn : Nat → String)
    (st : AgentState) : List (Obs × Int) → KeyedEvents × AgentState
  | [] => ([], st)
  | (o, t) :: rest =>
    let r := observe resolver pn o t st
    let r' := runObs resolver pn r.2 rest
    (r.1 ++ r'.1, r'.2)

/-- The emission times of key `k` within a keyed event list. -/
def emitsOf (k : ConnKey) (es : KeyedEvents) : List Int :=
  (es.filter (fun ke => decide (ke.1 = k))).map (fun ke => ke.2.detectedAt)

/-- The vendor OUI table of wifi-monitor.py (lines 24–34), in insertion
    order. -/
def VENDORS : List (String × String) :=
  [("ac:de:48", "Private"), ("b8:5e:71", "Intel"), ("7a:15:59", "Unknown"),
   ("de:be:b6", "Apple"), ("9e:5d:8f", "Apple"), ("a8:fe:9d", "Apple"),
   ("bc:d0:74", "Samsung"), ("00:0c:29", "VMware")]

/-- `get_vendor` (wifi-monitor.py lines 36–43): first OUI the lowercased
    MAC starts with, else `"Unknown Vendor"`.  (The source's `clean_mac`
    and `prefix` locals are computed but never used.) -/
def get_vendor (mac : String) : String :=
  match VENDORS.find? (fun ov => strStartsWith (strToLower mac) ov.1) with
  | some ov => ov.2
  | none => "Unknown Vendor"

/-- One parsed ARP row of `scan_network`. -/
structure Device where
  ip : String
  mac : String
deriving DecidableEq, Repr

/-- The BSD/macOS-branch filter of `scan_network` (wifi-monitor.py lines
    62–76): drop broadcast MAC, `224.*` multicast, the broadcast IP, and
    incomplete entries. -/
def arpFilter (rows : List Device) : List Device :=
  rows.filter (fun d =>
    !(d.mac == "ff:ff:ff:ff:ff:ff" || strStartsWith d.ip "224." || d.ip == "255.255.255.255")
      && !(containsSubstr d.mac "incomplete"))

/-- The event `send_events` builds per device (wifi-monitor.py lines
    104–119): identifier label from the MAC, vendor label, and an `"arp"`
    protocol field. -/
def wifi_event (now : Int) (d : Device) : Event :=
  { domain := "Device: " ++ d.mac,
    fullUrl := "tcp://" ++ d.ip,
    browser := "NetScan (" ++ get_vendor d.mac ++ ")",
    ipAddress := d.ip,
    detectedAt := now,
    protocol := some "arp" }

/-- The `"protocol"` field of the flow payload `send_flow_events` derives
    from an event (network-monitoring-agent.py line 300):
    `ev.get("protocol") or "tcp"` — an absent or empty (falsy) protocol
    becomes `"tcp"`. -/
def flow_protocol (ev : Event) : String :=
  match ev.protocol with
  | some p => if p = "" then "tcp" else p
  | none => "tcp"

/-- Uniqueness of dict keys (Python dicts cannot hold duplicate keys). -/
def keysNodup {β : Type} (m : List (ConnKey × β)) : Prop :=
  (m.map Prod.fst).Nodup

/-- Proof-side invariant tying a key's suppression-dict entry to the
    history `past` of clock readings at which an event for that key was
    emitted, as of a call clock `tc`:
    * the dict keys are unique,
    * consecutive (hence all) emission times are more than `SEEN_WINDOW`
      apart,
    * all emissions happened at or before `tc`,
    * an entry for `k` holds exactly the last emission time,
    * no entry for `k` means either no emission yet or the last emission
      is already more than `SEEN_WINDOW` in the past. -/
structure KInv (k : ConnKey) (recent : List (ConnKey × Int)) (tc : Int)
    (past : List Int) : Prop where
  nodup : keysNodup recent
  gaps : past.Pairwise (fun a b => SEEN_WINDOW < b - a)
  le_tc : ∀ t ∈ past, t ≤ tc
  link_some : ∀ t, lookupA recent k = some t → past.getLast? = some t
  link_none : lookupA recent k = none →
    past = [] ∨ ∃ tl, past.getLast? = some tl ∧ SEEN_WINDOW < tc - tl

/-! ## Concrete fixtures used in scenario theorems and witnesses -/

/-- A reverse resolver for which every lookup raises or times out. -/
def failResolver : String → Option String := fun _ => none

/-- A process-name oracle. -/
def procOracle : Nat → String := fun _ => "python3"

/-- An ESTABLISHED psutil connection to `ip:port` with no pid. -/
def connTo (ip : String) (port : Nat) : PsConn :=
  ⟨"ESTABLISHED", some (ip, port), none⟩

/-- An lsof output line (whitespace-split) for a chrome connection to
    `1.1.1.1:443`. -/
def llChrome : LsofLine :=
  ["chrome", "1234", "user", "33u", "IPv4", "0x1", "0t0", "TCP",
   "192.168.1.5:49448->1.1.1.1:443"]

/-- A reverse resolver that knows `1.1.1.1` and fails on everything
    else. -/
def cfResolver : String → Option String :=
  fun ip => if ip = "1.1.1.1" then some "one.one.one.one" else none


/-! ## Association-list lemmas -/

theorem lookupA_eq_none_of_not_mem {α β : Type} [DecidableEq α]
    {m : List (α × β)} {k : α} (h : k ∉ m.map Prod.fst) : lookupA m k = none := by
  induction m with
  | nil => rfl
  | cons kv rest ih =>
    simp only [List.map_cons, List.mem_cons] at h
    push_neg at h
    simp only [lookupA, if_neg h.1]
    exact ih h.2

theorem lookupA_filter_none {α β : Type} [DecidableEq α]
    {m : List (α × β)} {p : α × β → Bool} {k : α}
    (h : lookupA m k = none) : lookupA (m.filter p) k = none := by
  induction m with
  | nil => rfl
  | cons kv rest ih =>
    obtain ⟨k', v'⟩ := kv
    simp only [lookupA] at h
    by_cases hk : k = k'
    · simp [hk] at h
    · simp only [if_neg hk] at h
      simp only [List.filter_cons]
      by_cases hp : p (k', v')
      · simp only [hp, if_true, lookupA, if_neg hk]
        exact ih h
      · simp only [hp, Bool.false_eq_true, if_false]
        exact ih h

theorem lookupA_filter_kept {α β : Type} [DecidableEq α]
    {m : List (α × β)} {p : α × β → Bool} {k : α} {v : β}
    (h : lookupA m k = some v) (hp : p (k, v) = true) :
    lookupA (m.filter p) k = some v := by
  induction m with
  | nil => simp [lookupA] at h
  | cons kv rest ih =>
    obtain ⟨k', v'⟩ := kv
    simp only [lookupA] at h
    by_cases hk : k = k'
    · simp only [if_pos hk] at h
      obtain rfl : v' = v := by injection h
      subst hk
      simp only [List.filter_cons, hp, if_true, lookupA, if_pos rfl]
    · simp only [if_neg hk] at h
      simp only [List.filter_cons]
      by_cases hq : p (k', v')
      · simp only [hq, if_true, lookupA, if_neg hk]
        exact ih h
      · simp only [hq, Bool.false_eq_true, if_false]
        exact ih h

theorem lookupA_filter_dropped {α β : Type} [DecidableEq α]
    {m : List (α × β)} {p : α × β → Bool} {k : α} {v : β}
    (hnd : (m.map Prod.fst).Nodup)
    (h : lookupA m k = some v) (hp : p (k, v) = false) :
    lookupA (m.filter p) k = none := by
  induction m with
  | nil => simp [lookupA] at h
  | cons kv rest ih =>
    obtain ⟨k', v'⟩ := kv
    simp only [List.map_cons, List.nodup_cons] at hnd
    simp only [lookupA] at h
    by_cases hk : k = k'
    · simp only [if_pos hk] at h
      obtain rfl : v' = v := by injection h
      subst hk
      simp only [List.filter_cons, hp, Bool.false_eq_true, if_false]
      exact lookupA_filter_none (lookupA_eq_none_of_not_mem hnd.1)
    · simp only [if_neg hk] at h
      simp only [List.filter_cons]
      by_cases hq : p (k', v')
      · simp only [hq, if_true, lookupA, if_neg hk]
        exact ih hnd.2 h
      · simp only [hq, Bool.false_eq_true, if_false]
        exact ih hnd.2 h

theorem lookupA_setA_self {α β : Type} [DecidableEq α]
    (m : List (α × β)) (k : α) (v : β) : lookupA (setA m k v) k = some v := by
  induction m with
  | nil => simp [setA, lookupA]
  | cons kv rest ih =>
    obtain ⟨k', v'⟩ := kv
    by_cases hk : k = k'
    · simp [setA, hk, lookupA]
    · simp only [setA, if_neg hk, lookupA, if_neg hk]
      exact ih

theorem lookupA_setA_other {α β : Type} [DecidableEq α]
    {m : List (α × β)} {k k' : α} (v : β) (h : k' ≠ k) :
    lookupA (setA m k v) k' = lookupA m k' := by
  induction m with
  | nil => simp [setA, lookupA, if_neg h]
  | cons kv rest ih =>
    obtain ⟨k1, v1⟩ := kv
    by_cases hk : k = k1
    · subst hk
      simp [setA, lookupA, if_neg h]
    · simp only [setA, if_neg hk, lookupA]
      by_cases hk' : k' = k1
      · simp [if_pos hk']
      · simp only [if_neg hk']
        exact ih

theorem mem_keys_setA {α β : Type} [DecidableEq α]
    {m : List (α × β)} {k a : α} {v : β}
    (h : a ∈ (setA m k v).map Prod.fst) : a ∈ m.map Prod.fst ∨ a = k := by
  induction m with
  | nil =>
    simp only [setA, List.map_cons, List.map_nil, List.mem_singleton] at h
    exact Or.inr h
  | cons kv rest ih =>
    obtain ⟨k1, v1⟩ := kv
    by_cases hk : k = k1
    · subst hk
      rw [show setA ((k, v1) :: rest) k v = (k, v) :: rest from by simp [setA]] at h
      rw [List.map_cons] at h ⊢
      rcases List.mem_cons.mp h with h | h
      · exact Or.inr h
      · exact Or.inl (List.mem_cons_of_mem _ h)
    · rw [show setA ((k1, v1) :: rest) k v = (k1, v1) :: setA rest k v from by
        simp [setA, hk]] at h
      rw [List.map_cons] at h ⊢
      rcases List.mem_cons.mp h with h | h
      · exact Or.inl (List.mem_cons.mpr (Or.inl h))
      · rcases ih h with h2 | h2
        · exact Or.inl (List.mem_cons_of_mem _ h2)
        · exact Or.inr h2

theorem keysNodup_setA {β : Type} {m : List (ConnKey × β)} {k : ConnKey} {v : β}
    (h : keysNodup m) : keysNodup (setA m k v) := by
  induction m with
  | nil => simp [keysNodup, setA]
  | cons kv rest ih =>
    obtain ⟨k1, v1⟩ := kv
    simp only [keysNodup, List.map_cons, List.nodup_cons] at h
    by_cases hk : k = k1
    · subst hk
      rw [show setA ((k, v1) :: rest) k v = (k, v) :: rest from by simp [setA]]
      exact List.nodup_cons.mpr h
    · rw [show setA ((k1, v1) :: rest) k v = (k1, v1) :: setA rest k v from by
        simp [setA, hk]]
      refine List.nodup_cons.mpr ⟨fun hmem => ?_, ih h.2⟩
      rcases mem_keys_setA hmem with h2 | h2
      · exact h.1 h2
      · exact hk h2.symm

theorem keysNodup_filter {β : Type} {m : List (ConnKey × β)} {p : ConnKey × β → Bool}
    (h : keysNodup m) : keysNodup (m.filter p) := by
  exact ((List.filter_sublist m).map Prod.fst).nodup h

/-! ## Claim theorems -/

/-- C7: with `SEEN_WINDOW = 60`, observing the identical raw connection
    `(ip=1.2.3.4, port=443)` at `t=0`, `t=30` and `t=61` produces an
    Event at `t=0`, an empty result at `t=30`, and an Event again at
    `t=61`. -/
theorem suppression_scenario :
    ((collect_connections failResolver procOracle [connTo "1.2.3.4" 443] 0
        initState).1.map Event.detectedAt = [0]) ∧
    ((collect_connections failResolver procOracle [connTo "1.2.3.4" 443] 30
        (collect_connections failResolver procOracle [connTo "1.2.3.4" 443] 0
          initState).2).1 = []) ∧
    ((collect_connections failResolver procOracle [connTo "1.2.3.4" 443] 61
        (collect_connections failResolver procOracle [connTo "1.2.3.4" 443] 30
          (collect_connections failResolver procOracle [connTo "1.2.3.4" 443] 0
            initState).2).2).1.map Event.detectedAt = [61]) := by
  decide

/-- C10: `collect_connections` keys the suppression dict with the port as
    an integer, `collect_connections_lsof` with the port as a string, so
    the same remote endpoint `1.1.1.1:443`, observed by the psutil path at
    `t=0` and by the lsof fallback at `t=10` (10 seconds later, well
    within `SEEN_WINDOW`), is reported twice: suppression does not carry
    across the fallback. -/
theorem cross_path_key_mismatch :
    ((collect_connections_keyed failResolver procOracle [connTo "1.1.1.1" 443] 0
        initState).1.map Prod.fst = [("1.1.1.1", PortKey.int 443)]) ∧
    ((collect_connections_lsof_keyed failResolver [llChrome] 10
        (collect_connections_keyed failResolver procOracle [connTo "1.1.1.1" 443] 0
          initState).2).1.map
        (fun ke => (ke.1, ke.2.ipAddress, ke.2.detectedAt))
      = [(("1.1.1.1", PortKey.str "443"), "1.1.1.1", 10)]) ∧
    (10 : Int) - 0 < SEEN_WINDOW ∧
    ("1.1.1.1", PortKey.int 443) ≠ ("1.1.1.1", PortKey.str "443") := by
  decide

/-- C1 counterexample: when reverse resolution fails (host = raw IP) the
    code emits `tcp://{ip}:{port}` even for remote port 443, not
    `https://{ip}` as the claim requires. -/
theorem url_synthesis_counterexample :
    ((collect_connections failResolver procOracle [connTo "1.2.3.4" 443] 0
        initState).1.map Event.fullUrl = ["tcp://1.2.3.4:443"]) ∧
    ("tcp://1.2.3.4:443" : String) ≠ "https://1.2.3.4" := by
  decide

/-- C2 counterexample: a tick at clock 3600 leaves untouched a seen entry
    whose age is exactly `SEEN_WINDOW` (the code evicts only on strict
    `>`) and leaves the DNS cache entry whose age is exactly
    `DNS_CACHE_TTL` in place (no tick ever sweeps the DNS cache), though
    the claim requires both to be removed (`>=`). -/
theorem eviction_counterexample :
    (3600 : Int) - 3540 ≥ SEEN_WINDOW ∧
    (3600 : Int) - 0 ≥ DNS_CACHE_TTL ∧
    (collect_connections failResolver procOracle [] 3600
        ⟨[(("9.9.9.9", PortKey.int 1), 3540)],
         ⟨[("8.8.8.8", ("dns.google", 0))], none, 0⟩⟩).2
      = ⟨[(("9.9.9.9", PortKey.int 1), 3540)],
         ⟨[("8.8.8.8", ("dns.google", 0))], none, 0⟩⟩ := by
  decide

/-- C3 counterexample: a raw connection whose remote IP is the multicast
    address `224.0.0.1` (inside `224.0.0.0/4`) does produce an Event —
    `collect_connections` filters only `127.*` and `::1`. -/
theorem loopback_filter_counterexample :
    (collect_connections failResolver procOracle [connTo "224.0.0.1" 5000] 0
        initState).1
      = [{ domain := "224.0.0.1", fullUrl := "tcp://224.0.0.1:5000",
           browser := "unknown", ipAddress := "224.0.0.1",
           detectedAt := 0, protocol := none }] := by
  decide

/-- C6 counterexample: the event `collect_connections` emits has no
    protocol field at all (`none`), not the claimed default `"tcp"`. -/
theorem protocol_fields_counterexample :
    ((collect_connections failResolver procOracle [connTo "1.2.3.4" 443] 0
        initState).1.map Event.protocol = [none]) ∧
    (none : Option String) ≠ some "tcp" := by
  decide

/-- `resolve_ip` on a cache hit that is still fresh returns the cached
    hostname and leaves the state untouched. -/
theorem resolve_ip_hit {resolver : String → Option String} {st : DnsState}
    {ip hn : String} {ts now : Int}
    (h : lookupA st.cache ip = some (hn, ts)) (hf : now - ts < DNS_CACHE_TTL) :
    resolve_ip resolver st ip now = (hn, st) := by
  unfold resolve_ip
  rw [h]
  simp [hf]

/-- `resolve_ip` on a cache miss with a failing resolver: negative-cache
    the raw IP at `now`, bump the invocation count, restore the saved
    default timeout. -/
theorem resolve_ip_miss_fail {resolver : String → Option String} {st : DnsState}
    {ip : String} (now : Int)
    (hfail : resolver ip = none) (hmiss : lookupA st.cache ip = none) :
    resolve_ip resolver st ip now
      = (ip, ⟨setA st.cache ip (ip, now), st.defaultTimeout, st.resolverCalls + 1⟩) := by
  unfold resolve_ip resolveFresh
  rw [hmiss, hfail]

/-- If a `resolve_ip` call changed the invocation count (i.e. actually
    invoked the resolver) while the queried IP was cached, the cached
    attempt must be at least `DNS_CACHE_TTL` old. -/
theorem resolve_ip_invoked_stale {resolver : String → Option String} {st : DnsState}
    {ip hn : String} {ts now : Int}
    (h : lookupA st.cache ip = some (hn, ts))
    (hcalls : (resolve_ip resolver st ip now).2.resolverCalls ≠ st.resolverCalls) :
    DNS_CACHE_TTL ≤ now - ts := by
  by_contra hlt
  push_neg at hlt
  rw [resolve_ip_hit h hlt] at hcalls
  exact hcalls rfl

/-- C9: `resolve_ip` restores the process-wide socket default timeout on
    every return path — cache hit, successful lookup, and raising/timing
    out lookup alike — and the only dict entry it can change is the
    `dns_cache` entry of the queried IP. -/
theorem resolve_ip_frame (resolver : String → Option String) (st : DnsState)
    (ip : String) (now : Int) :
    (resolve_ip resolver st ip now).2.defaultTimeout = st.defaultTimeout ∧
    ∀ ip', ip' ≠ ip →
      lookupA (resolve_ip resolver st ip now).2.cache ip' = lookupA st.cache ip' := by
  constructor
  · unfold resolve_ip resolveFresh
    cases h : lookupA st.cache ip with
    | some hv =>
      obtain ⟨hn, ts⟩ := hv
      by_cases hf : now - ts < DNS_CACHE_TTL
      · simp [hf]
      · cases hr : resolver ip <;> simp [hf]
    | none => cases hr : resolver ip <;> simp
  · intro ip' hne
    unfold resolve_ip resolveFresh
    cases h : lookupA st.cache ip with
    | some hv =>
      obtain ⟨hn, ts⟩ := hv
      by_cases hf : now - ts < DNS_CACHE_TTL
      · simp [hf]
      · cases hr : resolver ip <;> simp [hf, lookupA_setA_other _ hne]
    | none => cases hr : resolver ip <;> simp [lookupA_setA_other _ hne]

/-- C9 witness: the frame property at a concrete state containing an
    unrelated cache entry, with a failing resolver. -/
theorem resolve_ip_frame_witness :
    (resolve_ip failResolver ⟨[("8.8.8.8", ("dns.google", 0))], some 5, 0⟩
        "1.2.3.4" 10).2.defaultTimeout = some 5 ∧
    lookupA (resolve_ip failResolver ⟨[("8.8.8.8", ("dns.google", 0))], some 5, 0⟩
        "1.2.3.4" 10).2.cache "8.8.8.8" = some ("dns.google", 0) := by
  exact ⟨(resolve_ip_frame failResolver _ "1.2.3.4" 10).1,
    (resolve_ip_frame failResolver ⟨[("8.8.8.8", ("dns.google", 0))], some 5, 0⟩
      "1.2.3.4" 10).2 "8.8.8.8" (by decide)⟩

/-- C5: for a given IP the resolver is invoked at most once per
    `DNS_CACHE_TTL` seconds.  Concretely: a first failing resolution at
    `t1` invokes the resolver once, produces the raw IP as hostname, and
    negative-caches `(ip, t1)`; every later `resolve_ip` call before TTL
    expiry returns the raw IP without invoking the resolver (the state,
    including the invocation count, is unchanged); and in any state, a
    call that does invoke the resolver while the IP is cached can only
    happen `DNS_CACHE_TTL` or more after the cached attempt. -/
theorem dns_negative_caching (resolver : String → Option String) (st : DnsState)
    (ip : String) (t1 : Int)
    (hfail : resolver ip = none)
    (hmiss : lookupA st.cache ip = none) :
    (resolve_ip resolver st ip t1).1 = ip ∧
    (resolve_ip resolver st ip t1).2.resolverCalls = st.resolverCalls + 1 ∧
    lookupA (resolve_ip resolver st ip t1).2.cache ip = some (ip, t1) ∧
    (∀ t2, t2 - t1 < DNS_CACHE_TTL →
      (resolve_ip resolver (resolve_ip resolver st ip t1).2 ip t2).1 = ip ∧
      (resolve_ip resolver (resolve_ip resolver st ip t1).2 ip t2).2
        = (resolve_ip resolver st ip t1).2) ∧
    (∀ (st' : DnsState) (hn : String) (ts' t' : Int),
      lookupA st'.cache ip = some (hn, ts') →
      (resolve_ip resolver st' ip t').2.resolverCalls ≠ st'.resolverCalls →
      DNS_CACHE_TTL ≤ t' - ts') := by
  have h1 := @resolve_ip_miss_fail resolver st ip t1 hfail hmiss
  refine ⟨by rw [h1], by rw [h1], ?_, ?_, ?_⟩
  · rw [h1]
    exact lookupA_setA_self st.cache ip (ip, t1)
  · intro t2 ht2
    have hget : lookupA (resolve_ip resolver st ip t1).2.cache ip = some (ip, t1) := by
      rw [h1]
      exact lookupA_setA_self st.cache ip (ip, t1)
    have := @resolve_ip_hit resolver (resolve_ip resolver st ip t1).2 ip ip t1 t2 hget ht2
    rw [this]
    exact ⟨rfl, rfl⟩
  · intro st' hn ts' t' hlook hcalls
    exact resolve_ip_invoked_stale hlook hcalls

/-- C5 witness: a failing resolver on an empty cache at `t1 = 0`, with a
    second call at `t2 = 3599 < DNS_CACHE_TTL` that changes nothing. -/
theorem dns_negative_caching_witness :
    (resolve_ip failResolver ⟨[], none, 0⟩ "9.9.9.9" 0).1 = "9.9.9.9" ∧
    (resolve_ip failResolver (resolve_ip failResolver ⟨[], none, 0⟩ "9.9.9.9" 0).2
        "9.9.9.9" 3599).2
      = (resolve_ip failResolver ⟨[], none, 0⟩ "9.9.9.9" 0).2 := by
  refine ⟨(dns_negative_caching failResolver ⟨[], none, 0⟩ "9.9.9.9" 0 rfl rfl).1, ?_⟩
  exact ((dns_negative_caching failResolver ⟨[], none, 0⟩ "9.9.9.9" 0 rfl
    rfl).2.2.2.1 3599 (by decide)).2

/-- C8 counterexample: a call at clock 80, earlier than the recorded
    timestamp 100 of one entry, still evicts the other entry aged 75 —
    the claim that such a call evicts no seen-cache entry is false. -/
theorem clock_skew_counterexample :
    (80 : Int) < 100 ∧
    (collect_connections failResolver procOracle [] 80
        ⟨[(("10.0.0.1", PortKey.int 1), 100), (("10.0.0.2", PortKey.int 2), 5)],
         ⟨[], none, 0⟩⟩).2.recent
      = [(("10.0.0.1", PortKey.int 1), 100)] := by
  decide

/-! ## Properties of the psutil connection loop -/

theorem ccLoop_emitted (resolver : String → Option String) (pn : Nat → String)
    (now : Int) :
    ∀ (conns : List PsConn) (recent : List (ConnKey × Int)) (dns : DnsState),
      ∀ ke ∈ (ccLoop resolver pn now conns recent dns).1,
        ke.2.detectedAt = now ∧ ke.2.protocol = none ∧
        strStartsWith ke.2.ipAddress "127." = false ∧ ke.2.ipAddress ≠ "::1" := by
  intro conns
  induction conns with
  | nil =>
    intro recent dns ke hke
    simp [ccLoop] at hke
  | cons c rest ih =>
    intro recent dns ke hke
    simp only [ccLoop] at hke
    cases hr : c.raddr with
    | none =>
      rw [hr] at hke
      exact ih recent dns ke hke
    | some addr =>
      obtain ⟨rip, rport⟩ := addr
      rw [hr] at hke
      by_cases hst : c.status = "ESTABLISHED"
      · simp only [if_pos hst] at hke
        by_cases hlb : (strStartsWith rip "127." = true) ∨ rip = "::1"
        · simp only [if_pos hlb] at hke
          exact ih recent dns ke hke
        · simp only [if_neg hlb] at hke
          by_cases hsup : (lookupA recent (rip, PortKey.int rport)).isSome
          · simp only [if_pos hsup] at hke
            exact ih recent dns ke hke
          · simp only [if_neg hsup] at hke
            push_neg at hlb
            rcases List.mem_cons.mp hke with rfl | h2
            · exact ⟨rfl, rfl, Bool.not_eq_true _ ▸ eq_false_of_ne_true hlb.1, hlb.2⟩
            · exact ih _ _ ke h2
      · simp only [if_neg hst] at hke
        exact ih recent dns ke hke

theorem emitsOf_cons_self (k : ConnKey) (e : Event) (es : KeyedEvents) :
    emitsOf k ((k, e) :: es) = e.detectedAt :: emitsOf k es := by
  simp [emitsOf]

theorem emitsOf_cons_other {k k0 : ConnKey} (h : k0 ≠ k) (e : Event)
    (es : KeyedEvents) : emitsOf k ((k0, e) :: es) = emitsOf k es := by
  simp [emitsOf, h]

theorem emitsOf_append (k : ConnKey) (es es' : KeyedEvents) :
    emitsOf k (es ++ es') = emitsOf k es ++ emitsOf k es' := by
  simp [emitsOf]

theorem ccLoop_nodup (resolver : String → Option String) (pn : Nat → String)
    (now : Int) :
    ∀ (conns : List PsConn) (recent : List (ConnKey × Int)) (dns : DnsState),
      keysNodup recent → keysNodup (ccLoop resolver pn now conns recent dns).2.1 := by
  intro conns
  induction conns with
  | nil =>
    intro recent dns h
    simpa [ccLoop] using h
  | cons c rest ih =>
    intro recent dns h
    simp only [ccLoop]
    cases hr : c.raddr with
    | none => exact ih recent dns h
    | some addr =>
      obtain ⟨rip, rport⟩ := addr
      by_cases hst : c.status = "ESTABLISHED"
      · simp only [if_pos hst]
        by_cases hlb : (strStartsWith rip "127." = true) ∨ rip = "::1"
        · simp only [if_pos hlb]
          exact ih recent dns h
        · simp only [if_neg hlb]
          by_cases hsup : (lookupA recent (rip, PortKey.int rport)).isSome
          · simp only [if_pos hsup]
            exact ih recent dns h
          · simp only [if_neg hsup]
            exact ih _ _ (keysNodup_setA h)
      · simp only [if_neg hst]
        exact ih recent dns h

theorem ccLoop_lookup_some (resolver : String → Option String) (pn : Nat → String)
    (now : Int) (k : ConnKey) (t : Int) :
    ∀ (conns : List PsConn) (recent : List (ConnKey × Int)) (dns : DnsState),
      lookupA recent k = some t →
      emitsOf k (ccLoop resolver pn now conns recent dns).1 = [] ∧
      lookupA (ccLoop resolver pn now conns recent dns).2.1 k = some t := by
  intro conns
  induction conns with
  | nil =>
    intro recent dns h
    simpa [ccLoop, emitsOf] using h
  | cons c rest ih =>
    intro recent dns h
    simp only [ccLoop]
    cases hr : c.raddr with
    | none => exact ih recent dns h
    | some addr =>
      obtain ⟨rip, rport⟩ := addr
      by_cases hst : c.status = "ESTABLISHED"
      · simp only [if_pos hst]
        by_cases hlb : (strStartsWith rip "127." = true) ∨ rip = "::1"
        · simp only [if_pos hlb]
          exact ih recent dns h
        · simp only [if_neg hlb]
          by_cases hsup : (lookupA recent (rip, PortKey.int rport)).isSome
          · simp only [if_pos hsup]
            exact ih recent dns h
          · simp only [if_neg hsup]
            have hk0 : (rip, PortKey.int rport) ≠ k := by
              intro heq
              rw [heq, h] at hsup
              exact hsup rfl
            have hset : lookupA (setA recent (rip, PortKey.int rport) now) k = some t := by
              rw [lookupA_setA_other _ (Ne.symm hk0)]
              exact h
            have hrest := ih (setA recent (rip, PortKey.int rport) now)
              (resolve_ip resolver dns rip now).2 hset
            rw [emitsOf_cons_other hk0]
            exact hrest
      · simp only [if_neg hst]
        exact ih recent dns h

theorem ccLoop_lookup_none (resolver : String → Option String) (pn : Nat → String)
    (now : Int) (k : ConnKey) :
    ∀ (conns : List PsConn) (recent : List (ConnKey × Int)) (dns : DnsState),
      lookupA recent k = none →
      (emitsOf k (ccLoop resolver pn now conns recent dns).1 = [] ∧
        lookupA (ccLoop resolver pn now conns recent dns).2.1 k = none) ∨
      (emitsOf k (ccLoop resolver pn now conns recent dns).1 = [now] ∧
        lookupA (ccLoop resolver pn now conns recent dns).2.1 k = some now) := by
  intro conns
  induction conns with
  | nil =>
    intro recent dns h
    left
    simpa [ccLoop, emitsOf] using h
  | cons c rest ih =>
    intro recent dns h
    simp only [ccLoop]
    cases hr : c.raddr with
    | none => exact ih recent dns h
    | some addr =>
      obtain ⟨rip, rport⟩ := addr
      by_cases hst : c.status = "ESTABLISHED"
      · simp only [if_pos hst]
        by_cases hlb : (strStartsWith rip "127." = true) ∨ rip = "::1"
        · simp only [if_pos hlb]
          exact ih recent dns h
        · simp only [if_neg hlb]
          by_cases hsup : (lookupA recent (rip, PortKey.int rport)).isSome
          · simp only [if_pos hsup]
            exact ih recent dns h
          · simp only [if_neg hsup]
            by_cases hk0 : (rip, PortKey.int rport) = k
            · subst hk0
              have hset : lookupA (setA recent (rip, PortKey.int rport) now)
                  (rip, PortKey.int rport) = some now :=
                lookupA_setA_self recent _ now
              have hrest := ccLoop_lookup_some resolver pn now _ now rest
                (setA recent (rip, PortKey.int rport) now)
                (resolve_ip resolver dns rip now).2 hset
              right
              rw [emitsOf_cons_self]
              exact ⟨by rw [hrest.1], hrest.2⟩
            · have hset : lookupA (setA recent (rip, PortKey.int rport) now) k = none := by
                rw [lookupA_setA_other _ (fun hx => hk0 hx.symm)]
                exact h
              have hrest := ih (setA recent (rip, PortKey.int rport) now)
                (resolve_ip resolver dns rip now).2 hset
              rw [emitsOf_cons_other hk0]
              exact hrest
      · simp only [if_neg hst]
        exact ih recent dns h

/-! ## Properties of the lsof fallback loop -/

theorem lsofLoop_emitted (resolver : String → Option String) (now : Int) :
    ∀ (lines : List LsofLine) (recent : List (ConnKey × Int)) (dns : DnsState),
      ∀ ke ∈ (lsofLoop resolver now lines recent dns).1,
        ke.2.detectedAt = now ∧ ke.2.protocol = none ∧
        strStartsWith ke.2.ipAddress "127." = false ∧
        ke.2.ipAddress ≠ "::1" ∧ ke.2.ipAddress ≠ "localhost" := by
  intro lines
  induction lines with
  | nil =>
    intro recent dns ke hke
    simp [lsofLoop] at hke
  | cons line rest ih =>
    intro recent dns ke hke
    simp only [lsofLoop] at hke
    by_cases hlen : line.length < 8
    · rw [if_pos hlen] at hke
      exact ih recent dns ke hke
    · rw [if_neg hlen] at hke
      by_cases hnf : ((line.find? fun p => containsSubstr p "->").getD "") = ""
      · rw [if_pos hnf] at hke
        exact ih recent dns ke hke
      · rw [if_neg hnf] at hke
        cases hsp : splitArrow ((line.find? fun p => containsSubstr p "->").getD "").toList with
        | none =>
          rw [hsp] at hke
          exact ih recent dns ke hke
        | some pr =>
          obtain ⟨loc, rch⟩ := pr
          rw [hsp] at hke
          dsimp only at hke
          by_cases harr : containsSeq rch ['-', '>'] = true
          · rw [if_pos harr] at hke
            exact ih recent dns ke hke
          · rw [if_neg harr] at hke
            by_cases hcol : containsSubstr (String.mk rch) ":" = true
            · rw [if_neg (not_not_intro hcol)] at hke
              by_cases hlb : (strStartsWith (stripBrackets (rsplitColon (String.mk rch)).1) "127." = true)
                  ∨ stripBrackets (rsplitColon (String.mk rch)).1 = "::1"
                  ∨ stripBrackets (rsplitColon (String.mk rch)).1 = "localhost"
              · rw [if_pos hlb] at hke
                exact ih recent dns ke hke
              · rw [if_neg hlb] at hke
                by_cases hsup : (lookupA recent (stripBrackets (rsplitColon (String.mk rch)).1,
                    PortKey.str (rsplitColon (String.mk rch)).2)).isSome
                · rw [if_pos hsup] at hke
                  exact ih recent dns ke hke
                · rw [if_neg hsup] at hke
                  push_neg at hlb
                  rcases List.mem_cons.mp hke with rfl | h2
                  · exact ⟨rfl, rfl, eq_false_of_ne_true hlb.1, hlb.2.1, hlb.2.2⟩
                  · exact ih _ _ ke h2
            · rw [if_pos hcol] at hke
              exact ih recent dns ke hke

theorem lsofLoop_nodup (resolver : String → Option String) (now : Int) :
    ∀ (lines : List LsofLine) (recent : List (ConnKey × Int)) (dns : DnsState),
      keysNodup recent → keysNodup (lsofLoop resolver now lines recent dns).2.1 := by
  intro lines
  induction lines with
  | nil =>
    intro recent dns h
    simpa [lsofLoop] using h
  | cons line rest ih =>
    intro recent dns h
    simp only [lsofLoop]
    by_cases hlen : line.length < 8
    · rw [if_pos hlen]
      exact ih recent dns h
    · rw [if_neg hlen]
      by_cases hnf : ((line.find? fun p => containsSubstr p "->").getD "") = ""
      · rw [if_pos hnf]
        exact ih recent dns h
      · rw [if_neg hnf]
        cases hsp : splitArrow ((line.find? fun p => containsSubstr p "->").getD "").toList with
        | none =>
          exact ih recent dns h
        | some pr =>
          obtain ⟨loc, rch⟩ := pr
          dsimp only
          by_cases harr : containsSeq rch ['-', '>'] = true
          · rw [if_pos harr]
            exact ih recent dns h
          · rw [if_neg harr]
            by_cases hcol : containsSubstr (String.mk rch) ":" = true
            · rw [if_neg (not_not_intro hcol)]
              by_cases hlb : (strStartsWith (stripBrackets (rsplitColon (String.mk rch)).1) "127." = true)
                  ∨ stripBrackets (rsplitColon (String.mk rch)).1 = "::1"
                  ∨ stripBrackets (rsplitColon (String.mk rch)).1 = "localhost"
              · rw [if_pos hlb]
                exact ih recent dns h
              · rw [if_neg hlb]
                by_cases hsup : (lookupA recent (stripBrackets (rsplitColon (String.mk rch)).1,
                    PortKey.str (rsplitColon (String.mk rch)).2)).isSome
                · rw [if_pos hsup]
                  exact ih recent dns h
                · rw [if_neg hsup]
                  exact ih _ _ (keysNodup_setA h)
            · rw [if_pos hcol]
              exact ih recent dns h

theorem lsofLoop_lookup_some (resolver : String → Option String) (now : Int)
    (k : ConnKey) (t : Int) :
    ∀ (lines : List LsofLine) (recent : List (ConnKey × Int)) (dns : DnsState),
      lookupA recent k = some t →
      emitsOf k (lsofLoop resolver now lines recent dns).1 = [] ∧
      lookupA (lsofLoop resolver now lines recent dns).2.1 k = some t := by
  intro lines
  induction lines with
  | nil =>
    intro recent dns h
    simpa [lsofLoop, emitsOf] using h
  | cons line rest ih =>
    intro recent dns h
    simp only [lsofLoop]
    by_cases hlen : line.length < 8
    · rw [if_pos hlen]
      exact ih recent dns h
    · rw [if_neg hlen]
      by_cases hnf : ((line.find? fun p => containsSubstr p "->").getD "") = ""
      · rw [if_pos hnf]
        exact ih recent dns h
      · rw [if_neg hnf]
        cases hsp : splitArrow ((line.find? fun p => containsSubstr p "->").getD "").toList with
        | none =>
          exact ih recent dns h
        | some pr =>
          obtain ⟨loc, rch⟩ := pr
          dsimp only
          by_cases harr : containsSeq rch ['-', '>'] = true
          · rw [if_pos harr]
            exact ih recent dns h
          · rw [if_neg harr]
            by_cases hcol : containsSubstr (String.mk rch) ":" = true
            · rw [if_neg (not_not_intro hcol)]
              by_cases hlb : (strStartsWith (stripBrackets (rsplitColon (String.mk rch)).1) "127." = true)
                  ∨ stripBrackets (rsplitColon (String.mk rch)).1 = "::1"
                  ∨ stripBrackets (rsplitColon (String.mk rch)).1 = "localhost"
              · rw [if_pos hlb]
                exact ih recent dns h
              · rw [if_neg hlb]
                by_cases hsup : (lookupA recent (stripBrackets (rsplitColon (String.mk rch)).1,
                    PortKey.str (rsplitColon (String.mk rch)).2)).isSome
                · rw [if_pos hsup]
                  exact ih recent dns h
                · rw [if_neg hsup]
                  have hk0 : (stripBrackets (rsplitColon (String.mk rch)).1,
                      PortKey.str (rsplitColon (String.mk rch)).2) ≠ k := by
                    intro heq
                    rw [heq, h] at hsup
                    exact hsup rfl
                  have hset : lookupA (setA recent (stripBrackets (rsplitColon (String.mk rch)).1,
                      PortKey.str (rsplitColon (String.mk rch)).2) now) k = some t := by
                    rw [lookupA_setA_other _ (Ne.symm hk0)]
                    exact h
                  have hrest := ih (setA recent (stripBrackets (rsplitColon (String.mk rch)).1,
                      PortKey.str (rsplitColon (String.mk rch)).2) now)
                    (resolve_ip resolver dns (stripBrackets (rsplitColon (String.mk rch)).1) now).2 hset
                  rw [emitsOf_cons_other hk0]
                  exact hrest
            · rw [if_pos hcol]
              exact ih recent dns h

theorem lsofLoop_lookup_none (resolver : String → Option String) (now : Int)
    (k : ConnKey) :
    ∀ (lines : List LsofLine) (recent : List (ConnKey × Int)) (dns : DnsState),
      lookupA recent k = none →
      (emitsOf k (lsofLoop resolver now lines recent dns).1 = [] ∧
        lookupA (lsofLoop resolver now lines recent dns).2.1 k = none) ∨
      (emitsOf k (lsofLoop resolver now lines recent dns).1 = [now] ∧
        lookupA (lsofLoop resolver now lines recent dns).2.1 k = some now) := by
  intro lines
  induction lines with
  | nil =>
    intro recent dns h
    left
    simpa [lsofLoop, emitsOf] using h
  | cons line rest ih =>
    intro recent dns h
    simp only [lsofLoop]
    by_cases hlen : line.length < 8
    · rw [if_pos hlen]
      exact ih recent dns h
    · rw [if_neg hlen]
      by_cases hnf : ((line.find? fun p => containsSubstr p "->").getD "") = ""
      · rw [if_pos hnf]
        exact ih recent dns h
      · rw [if_neg hnf]
        cases hsp : splitArrow ((line.find? fun p => containsSubstr p "->").getD "").toList with
        | none =>
          exact ih recent dns h
        | some pr =>
          obtain ⟨loc, rch⟩ := pr
          dsimp only
          by_cases harr : containsSeq rch ['-', '>'] = true
          · rw [if_pos harr]
            exact ih recent dns h
          · rw [if_neg harr]
            by_cases hcol : containsSubstr (String.mk rch) ":" = true
            · rw [if_neg (not_not_intro hcol)]
              by_cases hlb : (strStartsWith (stripBrackets (rsplitColon (String.mk rch)).1) "127." = true)
                  ∨ stripBrackets (rsplitColon (String.mk rch)).1 = "::1"
                  ∨ stripBrackets (rsplitColon (String.mk rch)).1 = "localhost"
              · rw [if_pos hlb]
                exact ih recent dns h
              · rw [if_neg hlb]
                by_cases hsup : (lookupA recent (stripBrackets (rsplitColon (String.mk rch)).1,
                    PortKey.str (rsplitColon (String.mk rch)).2)).isSome
                · rw [if_pos hsup]
                  exact ih recent dns h
                · rw [if_neg hsup]
                  by_cases hk0 : (stripBrackets (rsplitColon (String.mk rch)).1,
                      PortKey.str (rsplitColon (String.mk rch)).2) = k
                  · subst hk0
                    have hset : lookupA (setA recent (stripBrackets (rsplitColon (String.mk rch)).1,
                        PortKey.str (rsplitColon (String.mk rch)).2) now)
                        (stripBrackets (rsplitColon (String.mk rch)).1,
                        PortKey.str (rsplitColon (String.mk rch)).2) = some now :=
                      lookupA_setA_self recent _ now
                    have hrest := lsofLoop_lookup_some resolver now _ now rest
                      (setA recent (stripBrackets (rsplitColon (String.mk rch)).1,
                        PortKey.str (rsplitColon (String.mk rch)).2) now)
                      (resolve_ip resolver dns (stripBrackets (rsplitColon (String.mk rch)).1) now).2
                      hset
                    right
                    rw [emitsOf_cons_self]
                    exact ⟨by rw [hrest.1], hrest.2⟩
                  · have hset : lookupA (setA recent (stripBrackets (rsplitColon (String.mk rch)).1,
                        PortKey.str (rsplitColon (String.mk rch)).2) now) k = none := by
                      rw [lookupA_setA_other _ (fun hx => hk0 hx.symm)]
                      exact h
                    have hrest := ih (setA recent (stripBrackets (rsplitColon (String.mk rch)).1,
                        PortKey.str (rsplitColon (String.mk rch)).2) now)
                      (resolve_ip resolver dns (stripBrackets (rsplitColon (String.mk rch)).1) now).2 hset
                    rw [emitsOf_cons_other hk0]
                    exact hrest
            · rw [if_pos hcol]
              exact ih recent dns h

/-! ## Amended claims about filtering, protocol fields and eviction -/

/-- C3 amended: the connection collectors drop exactly the loopback
    remotes — `collect_connections` those starting `127.` or equal to
    `::1`, the lsof fallback additionally the literal `localhost` — so no
    emitted Event ever carries such an address; the multicast/broadcast
    filter exists only in the wifi ARP scan and applies to scanned
    devices. -/
theorem loopback_filter_amended (resolver : String → Option String)
    (pn : Nat → String) (conns : List PsConn) (lines : List LsofLine)
    (rows : List Device) (now : Int) (st st' : AgentState) :
    (∀ e ∈ (collect_connections resolver pn conns now st).1,
      strStartsWith e.ipAddress "127." = false ∧ e.ipAddress ≠ "::1") ∧
    (∀ e ∈ (collect_connections_lsof resolver lines now st').1,
      strStartsWith e.ipAddress "127." = false ∧ e.ipAddress ≠ "::1" ∧
      e.ipAddress ≠ "localhost") ∧
    (∀ d ∈ arpFilter rows,
      strStartsWith d.ip "224." = false ∧ d.ip ≠ "255.255.255.255" ∧
      d.mac ≠ "ff:ff:ff:ff:ff:ff") := by
  refine ⟨?_, ?_, ?_⟩
  · intro e he
    simp only [collect_connections, collect_connections_keyed] at he
    obtain ⟨ke, hke, rfl⟩ := List.mem_map.mp he
    have h := ccLoop_emitted resolver pn now conns (evictRecent now st.recent)
      st.dns ke hke
    exact ⟨h.2.2.1, h.2.2.2⟩
  · intro e he
    simp only [collect_connections_lsof, collect_connections_lsof_keyed] at he
    obtain ⟨ke, hke, rfl⟩ := List.mem_map.mp he
    have h := lsofLoop_emitted resolver now lines (evictRecent now st'.recent)
      st'.dns ke hke
    exact ⟨h.2.2.1, h.2.2.2⟩
  · intro d hd
    rw [arpFilter, List.mem_filter] at hd
    have h2 := hd.2
    simp only [Bool.and_eq_true, Bool.not_eq_true', Bool.or_eq_false_iff,
      beq_eq_false_iff_ne] at h2
    exact ⟨h2.1.1.2, h2.1.2, h2.1.1.1⟩

/-- C3 amended, witness: concrete runs of both collectors and of the ARP
    filter, with the filter conclusions evaluated. -/
theorem loopback_filter_amended_witness :
    (strStartsWith "8.8.8.8" "127." = false ∧ ("8.8.8.8" : String) ≠ "::1") ∧
    (strStartsWith "1.1.1.1" "127." = false ∧ ("1.1.1.1" : String) ≠ "::1" ∧
      ("1.1.1.1" : String) ≠ "localhost") ∧
    (strStartsWith "10.0.0.5" "224." = false ∧ ("10.0.0.5" : String) ≠ "255.255.255.255" ∧
      ("de:be:b6:aa:bb:cc" : String) ≠ "ff:ff:ff:ff:ff:ff") := by
  have h := loopback_filter_amended failResolver procOracle
    [connTo "8.8.8.8" 443] [llChrome] [⟨"10.0.0.5", "de:be:b6:aa:bb:cc"⟩]
    0 initState initState
  exact ⟨h.1 ⟨"8.8.8.8", "tcp://8.8.8.8:443", "unknown", "8.8.8.8", 0, none⟩
           (by decide),
         h.2.1 ⟨"1.1.1.1", "tcp://1.1.1.1:443", "chrome", "1.1.1.1", 0, none⟩
           (by decide),
         h.2.2 ⟨"10.0.0.5", "de:be:b6:aa:bb:cc"⟩ (by decide)⟩

/-- C6 amended: events from the connection collectors carry no protocol
    field (and hence default to `"tcp"` only where `send_flow_events`
    derives a flow payload), while the wifi-monitor device events carry
    the `"arp"` override. -/
theorem protocol_fields_amended (resolver : String → Option String)
    (pn : Nat → String) (conns : List PsConn) (lines : List LsofLine)
    (now : Int) (st st' : AgentState) :
    (∀ e ∈ (collect_connections resolver pn conns now st).1,
      e.protocol = none ∧ flow_protocol e = "tcp") ∧
    (∀ e ∈ (collect_connections_lsof resolver lines now st').1,
      e.protocol = none ∧ flow_protocol e = "tcp") ∧
    (∀ (t : Int) (d : Device),
      (wifi_event t d).protocol = some "arp" ∧
      flow_protocol (wifi_event t d) = "arp") := by
  refine ⟨?_, ?_, fun t d => ⟨rfl, rfl⟩⟩
  · intro e he
    simp only [collect_connections, collect_connections_keyed] at he
    obtain ⟨ke, hke, rfl⟩ := List.mem_map.mp he
    have h := (ccLoop_emitted resolver pn now conns (evictRecent now st.recent)
      st.dns ke hke).2.1
    exact ⟨h, by rw [flow_protocol, h]⟩
  · intro e he
    simp only [collect_connections_lsof, collect_connections_lsof_keyed] at he
    obtain ⟨ke, hke, rfl⟩ := List.mem_map.mp he
    have h := (lsofLoop_emitted resolver now lines (evictRecent now st'.recent)
      st'.dns ke hke).2.1
    exact ⟨h, by rw [flow_protocol, h]⟩

/-- C6 amended, witness: a concrete psutil event, a concrete lsof event,
    and a concrete wifi device event. -/
theorem protocol_fields_amended_witness :
    (Event.protocol ⟨"8.8.8.8", "tcp://8.8.8.8:443", "unknown", "8.8.8.8", 0, none⟩
        = none ∧
      flow_protocol ⟨"8.8.8.8", "tcp://8.8.8.8:443", "unknown", "8.8.8.8", 0, none⟩
        = "tcp") ∧
    ((wifi_event 7 ⟨"10.0.0.5", "de:be:b6:aa:bb:cc"⟩).protocol = some "arp" ∧
      flow_protocol (wifi_event 7 ⟨"10.0.0.5", "de:be:b6:aa:bb:cc"⟩) = "arp") := by
  have h := protocol_fields_amended failResolver procOracle
    [connTo "8.8.8.8" 443] [llChrome] 0 initState initState
  exact ⟨h.1 ⟨"8.8.8.8", "tcp://8.8.8.8:443", "unknown", "8.8.8.8", 0, none⟩
           (by decide),
         h.2.2 7 ⟨"10.0.0.5", "de:be:b6:aa:bb:cc"⟩⟩

/-- C8 amended: an entry whose recorded timestamp lies in the caller's
    future (clock skew) is never evicted nor modified by a tick — its age
    computes as a negative number, which fails the strict `> SEEN_WINDOW`
    test — and the tick, a total function, completes; other entries are
    evicted normally. -/
theorem clock_skew_amended (resolver : String → Option String)
    (pn : Nat → String) (o : Obs) (now : Int) (st : AgentState)
    (k : ConnKey) (t : Int)
    (hlook : lookupA st.recent k = some t) (hskew : now < t) :
    lookupA (observe resolver pn o now st).2.recent k = some t := by
  have hE : lookupA (evictRecent now st.recent) k = some t := by
    refine lookupA_filter_kept hlook ?_
    simp only [decide_eq_true_eq, SEEN_WINDOW]
    omega
  cases o with
  | ps conns =>
    exact (ccLoop_lookup_some resolver pn now k t conns
      (evictRecent now st.recent) st.dns hE).2
  | ls lines =>
    exact (lsofLoop_lookup_some resolver now k t lines
      (evictRecent now st.recent) st.dns hE).2

/-- C8 amended, witness: the future-dated entry of the counterexample
    state survives the call at clock 80 unchanged. -/
theorem clock_skew_amended_witness :
    lookupA (observe failResolver procOracle (Obs.ps []) 80
        ⟨[(("10.0.0.1", PortKey.int 1), 100), (("10.0.0.2", PortKey.int 2), 5)],
         ⟨[], none, 0⟩⟩).2.recent ("10.0.0.1", PortKey.int 1) = some 100 := by
  exact clock_skew_amended failResolver procOracle (Obs.ps []) 80
    ⟨[(("10.0.0.1", PortKey.int 1), 100), (("10.0.0.2", PortKey.int 2), 5)],
     ⟨[], none, 0⟩⟩ ("10.0.0.1", PortKey.int 1) 100 (by decide) (by decide)

/-- C2 amended: a tick's eviction pass keeps a seen entry exactly when
    its age is at most `SEEN_WINDOW` (eviction only on strict `>`), and
    a tick with no input connections changes nothing else: the DNS cache
    is never swept, however stale its entries. -/
theorem eviction_amended (resolver : String → Option String)
    (pn : Nat → String) (now : Int) (st : AgentState) (k : ConnKey) (t : Int) :
    ((k, t) ∈ evictRecent now st.recent ↔
      (k, t) ∈ st.recent ∧ now - t ≤ SEEN_WINDOW) ∧
    (collect_connections resolver pn [] now st).2.recent = evictRecent now st.recent ∧
    (collect_connections resolver pn [] now st).2.dns = st.dns ∧
    (collect_connections_lsof resolver [] now st).2.recent = evictRecent now st.recent ∧
    (collect_connections_lsof resolver [] now st).2.dns = st.dns := by
  refine ⟨?_, rfl, rfl, rfl, rfl⟩
  rw [evictRecent, List.mem_filter]
  simp only [decide_eq_true_eq]

/-- C1 amended: on both collection paths, the port-based URL guess
    applies only when the resolved hostname differs from the raw IP:
    then port 443 (the int port in `collect_connections`, the port text
    `"443"` in the lsof fallback) yields `https://{host}`, port 80
    `http://{host}`, and any other port `tcp://{host}:{port}`.  When the
    host equals the raw IP — in particular whenever reverse resolution
    failed — the emitted event's fullUrl is `tcp://{ip}:{port}` for
    every port. -/
theorem url_synthesis_amended :
    (∀ (resolver : String → Option String) (pn : Nat → String)
        (st : AgentState) (ip : String) (port : Nat) (now : Int),
      strStartsWith ip "127." = false → ip ≠ "::1" →
      lookupA st.recent (ip, PortKey.int port) = none →
      (collect_connections resolver pn [connTo ip port] now st).1
        = [{ domain := (resolve_ip resolver st.dns ip now).1,
             fullUrl :=
               if (resolve_ip resolver st.dns ip now).1 = ip then
                 "tcp://" ++ ip ++ ":" ++ toString port
               else if port = 443 then
                 "https://" ++ (resolve_ip resolver st.dns ip now).1
               else if port = 80 then
                 "http://" ++ (resolve_ip resolver st.dns ip now).1
               else
                 "tcp://" ++ (resolve_ip resolver st.dns ip now).1 ++ ":" ++
                   toString port,
             browser := "unknown", ipAddress := ip, detectedAt := now,
             protocol := none }]) ∧
    (∀ (resolver : String → Option String) (st : AgentState) (now : Int)
        (line : LsofLine) (loc rch : List Char),
      ¬ line.length < 8 →
      splitArrow ((line.find? fun p => containsSubstr p "->").getD "").toList
        = some (loc, rch) →
      containsSeq rch ['-', '>'] = false →
      containsSubstr (String.mk rch) ":" = true →
      strStartsWith (stripBrackets (rsplitColon (String.mk rch)).1) "127." = false →
      stripBrackets (rsplitColon (String.mk rch)).1 ≠ "::1" →
      stripBrackets (rsplitColon (String.mk rch)).1 ≠ "localhost" →
      lookupA st.recent (stripBrackets (rsplitColon (String.mk rch)).1,
        PortKey.str (rsplitColon (String.mk rch)).2) = none →
      (collect_connections_lsof resolver [line] now st).1
        = [{ domain := (resolve_ip resolver st.dns
               (stripBrackets (rsplitColon (String.mk rch)).1) now).1,
             fullUrl :=
               if (resolve_ip resolver st.dns
                     (stripBrackets (rsplitColon (String.mk rch)).1) now).1
                   = stripBrackets (rsplitColon (String.mk rch)).1 then
                 "tcp://" ++ stripBrackets (rsplitColon (String.mk rch)).1 ++
                   ":" ++ (rsplitColon (String.mk rch)).2
               else if (rsplitColon (String.mk rch)).2 = "443" then
                 "https://" ++ (resolve_ip resolver st.dns
                   (stripBrackets (rsplitColon (String.mk rch)).1) now).1
               else if (rsplitColon (String.mk rch)).2 = "80" then
                 "http://" ++ (resolve_ip resolver st.dns
                   (stripBrackets (rsplitColon (String.mk rch)).1) now).1
               else
                 "tcp://" ++ (resolve_ip resolver st.dns
                   (stripBrackets (rsplitColon (String.mk rch)).1) now).1 ++
                   ":" ++ (rsplitColon (String.mk rch)).2,
             browser := line.headD "",
             ipAddress := stripBrackets (rsplitColon (String.mk rch)).1,
             detectedAt := now, protocol := none }]) := by
  constructor
  · intro resolver pn st ip port now h127 h61 habs
    have hlb : ¬ (strStartsWith ip "127." = true ∨ ip = "::1") := by
      rw [h127]
      simp [h61]
    have hsup : ¬ (lookupA (evictRecent now st.recent) (ip, PortKey.int port)).isSome = true := by
      have hnone : lookupA (evictRecent now st.recent) (ip, PortKey.int port) = none :=
        lookupA_filter_none habs
      rw [hnone]
      simp
    simp only [collect_connections, collect_connections_keyed, ccLoop, connTo]
    rw [if_pos trivial, if_neg hlb, if_neg hsup]
    simp only [procNameOf, List.map_cons, List.map_nil]
    by_cases hh : (resolve_ip resolver st.dns ip now).1 = ip
    · rw [if_neg (not_not_intro hh), if_pos hh]
      simp [hh]
    · rw [if_pos hh, if_neg hh]
  · intro resolver st now line loc rch h8 hsp harr hcol h127b h61b hlocal habs
    have hnf : ¬ ((line.find? fun p => containsSubstr p "->").getD "") = "" := by
      intro h0
      rw [h0] at hsp
      rw [show splitArrow ("" : String).toList = none from rfl] at hsp
      cases hsp
    have harr2 : ¬ (containsSeq rch ['-', '>'] = true) := by
      rw [harr]
      simp
    have hc2 : ¬ (¬ containsSubstr (String.mk rch) ":" = true) := not_not_intro hcol
    have hlb : ¬ (strStartsWith (stripBrackets (rsplitColon (String.mk rch)).1) "127." = true
        ∨ stripBrackets (rsplitColon (String.mk rch)).1 = "::1"
        ∨ stripBrackets (rsplitColon (String.mk rch)).1 = "localhost") := by
      rw [h127b]
      simp [h61b, hlocal]
    have hsup : ¬ (lookupA (evictRecent now st.recent)
        (stripBrackets (rsplitColon (String.mk rch)).1,
         PortKey.str (rsplitColon (String.mk rch)).2)).isSome = true := by
      have hnone : lookupA (evictRecent now st.recent)
          (stripBrackets (rsplitColon (String.mk rch)).1,
           PortKey.str (rsplitColon (String.mk rch)).2) = none :=
        lookupA_filter_none habs
      rw [hnone]
      simp
    simp only [collect_connections_lsof, collect_connections_lsof_keyed, lsofLoop]
    rw [if_neg h8, if_neg hnf, hsp]
    dsimp only
    rw [if_neg harr2, if_neg hc2, if_neg hlb, if_neg hsup]
    simp only [List.map_cons, List.map_nil]
    by_cases hh : (resolve_ip resolver st.dns
        (stripBrackets (rsplitColon (String.mk rch)).1) now).1
        = stripBrackets (rsplitColon (String.mk rch)).1
    · rw [if_neg (not_not_intro hh), if_pos hh]
      simp [hh]
    · rw [if_pos hh, if_neg hh]

/-- C1 amended, witness: on the psutil path a failed resolution at port
    443 yields the `tcp://` form; on the lsof path a successful
    resolution of `1.1.1.1` with port text `"443"` yields the `https://`
    form. -/
theorem url_synthesis_amended_witness :
    ((collect_connections failResolver procOracle [connTo "93.184.216.34" 443] 0
        initState).1
      = [{ domain := "93.184.216.34", fullUrl := "tcp://93.184.216.34:443",
           browser := "unknown", ipAddress := "93.184.216.34", detectedAt := 0,
           protocol := none }]) ∧
    ((collect_connections_lsof cfResolver [llChrome] 0 initState).1
      = [{ domain := "one.one.one.one", fullUrl := "https://one.one.one.one",
           browser := "chrome", ipAddress := "1.1.1.1", detectedAt := 0,
           protocol := none }]) := by
  constructor
  · rw [url_synthesis_amended.1 failResolver procOracle initState "93.184.216.34"
      443 0 (by decide) (by decide) rfl]
    decide
  · rw [url_synthesis_amended.2 cfResolver initState 0 llChrome
      ("192.168.1.5:49448".toList) ("1.1.1.1:443".toList)
      (by decide) (by decide) (by decide) (by decide) (by decide) (by decide)
      (by decide) rfl]
    decide

/-! ## The suppression invariant (C4) -/

theorem getLast?_mem {α : Type} : ∀ {l : List α} {a : α},
    l.getLast? = some a → a ∈ l := by
  intro l
  induction l with
  | nil => intro a h; simp at h
  | cons x rest ih =>
    intro a h
    cases rest with
    | nil =>
      simp only [List.getLast?_singleton, Option.some.injEq] at h
      simp [h]
    | cons y rs =>
      rw [List.getLast?_cons_cons] at h
      exact List.mem_cons_of_mem _ (ih h)

theorem pairwise_gap_le_getLast :
    ∀ (l : List Int) (m : Int), l.Pairwise (fun a b => SEEN_WINDOW < b - a) →
      l.getLast? = some m → ∀ a ∈ l, a ≤ m := by
  intro l
  induction l with
  | nil => intro m hp hl a ha; simp at ha
  | cons x rest ih =>
    intro m hp hl a ha
    rcases List.pairwise_cons.mp hp with ⟨hx, hp'⟩
    cases rest with
    | nil =>
      simp only [List.getLast?_singleton, Option.some.injEq] at hl
      rcases List.mem_singleton.mp ha with rfl
      rw [← hl]
    | cons y rs =>
      rw [List.getLast?_cons_cons] at hl
      rcases List.mem_cons.mp ha with rfl | ha'
      · have hm : m ∈ y :: rs := getLast?_mem hl
        have hrel := hx m hm
        simp only [SEEN_WINDOW] at hrel
        omega
      · exact ih m hp' hl a ha'

/-- Core step of the suppression invariant: any tick whose loop behaves
    like the two collection loops (no emission and an unchanged entry for
    a key found after eviction; for an absent key either no emission, or
    one emission recorded at `now`) preserves `KInv`. -/
theorem kinv_step_core (k : ConnKey) {now tc : Int}
    {recent recentF : List (ConnKey × Int)} {past emits : List Int}
    (hinv : KInv k recent tc past) (hle : tc ≤ now)
    (hnodupF : keysNodup recentF)
    (hsome : ∀ t, lookupA (evictRecent now recent) k = some t →
      emits = [] ∧ lookupA recentF k = some t)
    (hnone : lookupA (evictRecent now recent) k = none →
      (emits = [] ∧ lookupA recentF k = none) ∨
      (emits = [now] ∧ lookupA recentF k = some now)) :
    KInv k recentF now (past ++ emits) := by
  cases hL : lookupA recent k with
  | some t =>
    have hlast := hinv.link_some t hL
    by_cases hkeep : now - t ≤ SEEN_WINDOW
    · have hE : lookupA (evictRecent now recent) k = some t :=
        lookupA_filter_kept hL (by simp [hkeep])
      obtain ⟨he, hF⟩ := hsome t hE
      subst he
      rw [List.append_nil]
      refine ⟨hnodupF, hinv.gaps, fun t' ht' => le_trans (hinv.le_tc t' ht') hle,
        ?_, ?_⟩
      · intro t'' h''
        rw [hF] at h''
        injection h'' with h''
        rw [← h'']
        exact hlast
      · intro h''
        rw [hF] at h''
        cases h''
    · have hE : lookupA (evictRecent now recent) k = none :=
        lookupA_filter_dropped hinv.nodup hL (by simp [hkeep])
      rcases hnone hE with ⟨he, hF⟩ | ⟨he, hF⟩
      · subst he
        rw [List.append_nil]
        refine ⟨hnodupF, hinv.gaps, fun t' ht' => le_trans (hinv.le_tc t' ht') hle,
          ?_, ?_⟩
        · intro t'' h''
          rw [hF] at h''
          cases h''
        · intro _
          exact Or.inr ⟨t, hlast, by omega⟩
      · subst he
        have hall := pairwise_gap_le_getLast past t hinv.gaps hlast
        refine ⟨hnodupF, ?_, ?_, ?_, ?_⟩
        · rw [List.pairwise_append]
          refine ⟨hinv.gaps, by simp, ?_⟩
          intro a ha b hb
          rcases List.mem_singleton.mp hb with rfl
          have := hall a ha
          omega
        · intro t' ht'
          rcases List.mem_append.mp ht' with h | h
          · exact le_trans (hinv.le_tc t' h) hle
          · rcases List.mem_singleton.mp h with rfl
            exact le_refl _
        · intro t'' h''
          rw [hF] at h''
          injection h'' with h''
          rw [← h'']
          exact List.getLast?_concat past
        · intro h''
          rw [hF] at h''
          cases h''
  | none =>
    have hE : lookupA (evictRecent now recent) k = none := lookupA_filter_none hL
    rcases hnone hE with ⟨he, hF⟩ | ⟨he, hF⟩
    · subst he
      rw [List.append_nil]
      refine ⟨hnodupF, hinv.gaps, fun t' ht' => le_trans (hinv.le_tc t' ht') hle,
        ?_, ?_⟩
      · intro t'' h''
        rw [hF] at h''
        cases h''
      · intro _
        rcases hinv.link_none hL with hp | ⟨tl, hlast, hgap⟩
        · exact Or.inl hp
        · exact Or.inr ⟨tl, hlast, by omega⟩
    · subst he
      refine ⟨hnodupF, ?_, ?_, ?_, ?_⟩
      · rw [List.pairwise_append]
        refine ⟨hinv.gaps, by simp, ?_⟩
        intro a ha b hb
        rcases List.mem_singleton.mp hb with rfl
        rcases hinv.link_none hL with hp | ⟨tl, hlast, hgap⟩
        · rw [hp] at ha
          cases ha
        · have := pairwise_gap_le_getLast past tl hinv.gaps hlast a ha
          omega
      · intro t' ht'
        rcases List.mem_append.mp ht' with h | h
        · exact le_trans (hinv.le_tc t' h) hle
        · rcases List.mem_singleton.mp h with rfl
          exact le_refl _
      · intro t'' h''
        rw [hF] at h''
        injection h'' with h''
        rw [← h'']
        exact List.getLast?_concat past
      · intro h''
        rw [hF] at h''
        cases h''

/-- One tick of either collection path preserves the suppression
    invariant, with the tick's emissions for `k` appended to its
    history. -/
theorem observe_step (resolver : String → Option String) (pn : Nat → String)
    (k : ConnKey) (o : Obs) (now tc : Int) (st : AgentState) (past : List Int)
    (hinv : KInv k st.recent tc past) (hle : tc ≤ now) :
    KInv k (observe resolver pn o now st).2.recent now
      (past ++ emitsOf k (observe resolver pn o now st).1) := by
  cases o with
  | ps conns =>
    exact kinv_step_core k hinv hle
      (ccLoop_nodup resolver pn now conns (evictRecent now st.recent) st.dns
        (keysNodup_filter hinv.nodup))
      (fun t ht => ccLoop_lookup_some resolver pn now k t conns
        (evictRecent now st.recent) st.dns ht)
      (ccLoop_lookup_none resolver pn now k conns
        (evictRecent now st.recent) st.dns)
  | ls lines =>
    exact kinv_step_core k hinv hle
      (lsofLoop_nodup resolver now lines (evictRecent now st.recent) st.dns
        (keysNodup_filter hinv.nodup))
      (fun t ht => lsofLoop_lookup_some resolver now k t lines
        (evictRecent now st.recent) st.dns ht)
      (lsofLoop_lookup_none resolver now k lines
        (evictRecent now st.recent) st.dns)

theorem runObs_gaps (resolver : String → Option String) (pn : Nat → String)
    (k : ConnKey) :
    ∀ (calls : List (Obs × Int)) (st : AgentState) (tc : Int) (past : List Int),
      KInv k st.recent tc past →
      List.Chain' (· ≤ ·) (tc :: calls.map Prod.snd) →
      (past ++ emitsOf k (runObs resolver pn st calls).1).Pairwise
        (fun a b => SEEN_WINDOW < b - a) := by
  intro calls
  induction calls with
  | nil =>
    intro st tc past hinv hch
    simpa [runObs, emitsOf] using hinv.gaps
  | cons ot rest ih =>
    obtain ⟨o, t⟩ := ot
    intro st tc past hinv hch
    rw [List.map_cons] at hch
    have hle : tc ≤ t := (List.chain'_cons.mp hch).1
    have hch' := (List.chain'_cons.mp hch).2
    have hstep := observe_step resolver pn k o t tc st past hinv hle
    have hrec := ih (observe resolver pn o t st).2 t
      (past ++ emitsOf k (observe resolver pn o t st).1) hstep hch'
    simp only [runObs, emitsOf_append, List.append_assoc] at hrec ⊢
    exact hrec

/-- C4: along any sequence of ticks with non-decreasing clock readings,
    starting from the initial empty caches, no two events for the same
    ConnectionKey are emitted with timestamps less than `SEEN_WINDOW`
    apart (on either collection path). -/
theorem suppression_invariant (resolver : String → Option String)
    (pn : Nat → String) (calls : List (Obs × Int)) (k : ConnKey)
    (hmono : List.Chain' (· ≤ ·) (calls.map Prod.snd)) :
    (emitsOf k (runObs resolver pn initState calls).1).Pairwise
      (fun t1 t2 => SEEN_WINDOW ≤ t2 - t1) := by
  have hinv : KInv k initState.recent ((calls.map Prod.snd).headD 0) [] := by
    refine ⟨?_, List.Pairwise.nil, ?_, ?_, fun _ => Or.inl rfl⟩
    · simp [keysNodup, initState]
    · intro t ht
      cases ht
    · intro t ht
      simp [initState, lookupA] at ht
  have hch : List.Chain' (· ≤ ·)
      (((calls.map Prod.snd).headD 0) :: calls.map Prod.snd) := by
    cases hc : calls.map Prod.snd with
    | nil => simp
    | cons t0 ts =>
      rw [hc] at hmono
      simp only [List.headD_cons]
      exact List.chain'_cons.mpr ⟨le_refl t0, hmono⟩
  have h := runObs_gaps resolver pn k calls initState
    ((calls.map Prod.snd).headD 0) [] hinv hch
  rw [List.nil_append] at h
  refine h.imp ?_
  intro a b hab
  omega

/-- C4 witness: the concrete three-tick run of the C7 scenario satisfies
    the pairwise gap bound. -/
theorem suppression_invariant_witness :
    (emitsOf ("1.2.3.4", PortKey.int 443)
        (runObs failResolver procOracle initState
          [(Obs.ps [connTo "1.2.3.4" 443], 0), (Obs.ps [connTo "1.2.3.4" 443], 30),
           (Obs.ps [connTo "1.2.3.4" 443], 61)]).1).Pairwise
      (fun t1 t2 => SEEN_WINDOW ≤ t2 - t1) := by
  exact suppression_invariant failResolver procOracle
    [(Obs.ps [connTo "1.2.3.4" 443], 0), (Obs.ps [connTo "1.2.3.4" 443], 30),
     (Obs.ps [connTo "1.2.3.4" 443], 61)] ("1.2.3.4", PortKey.int 443)
    (by simp)

end SentinelScope
